import Mathlib

/-!
Shallow embedding of the fixit orchestration core (`src/fixit/api.py`):
the single-file lint pipeline (`_make_result`, `fixit_bytes`, `fixit_file`),
the multi-path aggregator (`fixit_paths`, `_fixit_file_wrapper`) and the
reporter (`print_result`), together with proofs of the specified properties.

External collaborators (file system reads, configuration resolution, rule
loading, the violation collector, the path walker and the worker pool of
`trailrunner`) are modelled as fields of an environment record `Env`,
specified only at their interface boundary, exactly as the spec scopes them.
Python exceptions are modelled as values of type `PyError` (the caught
exception rendered together with its `traceback.format_exc()` string);
functions that may raise return `Except PyError _`.
-/

namespace Fixit

/-- Modelled from the spec: `CodePosition` from `fixit/ftypes.py` (not under
`src/`): a (line, column) pair identifying a point in source text. -/
structure CodePosition where
  line : Nat
  column : Nat
deriving DecidableEq

/-- Modelled from the spec: `CodeRange` from `fixit/ftypes.py` (not under
`src/`): a pair of positions delimiting a span.  The source calls the second
field `end`, a reserved word in Lean, so it is named `stop` here. -/
structure CodeRange where
  start : CodePosition
  stop : CodePosition
deriving DecidableEq

/-- Modelled from the spec: `LintViolation` from `fixit/ftypes.py` (not under
`src/`): the rule that fired, the source range, and a human-readable
message. -/
structure LintViolation where
  rule_name : String
  range : CodeRange
  message : String
deriving DecidableEq

/-- A raised-and-caught Python exception: the exception's rendering together
with the full trace string produced by `traceback.format_exc()` at the point
of capture. -/
structure PyError where
  exc : String
  tb : String
deriving DecidableEq

/-- Modelled from the spec: `Result` from `fixit/ftypes.py` (not under
`src/`): the single output unit of the pipeline, with `path` always present
and optional `violation` and `error` fields. -/
structure Result where
  path : String
  violation : Option LintViolation
  error : Option PyError
deriving DecidableEq

/-- Modelled from the spec: the part of `Config` (`fixit/ftypes.py`, not under
`src/`) that `api.py` reads, namely the `enable` and `disable` rule
selections passed to `collect_rules`. -/
structure Config where
  enable : List String
  disable : List String
deriving DecidableEq

/-- A loaded lint rule; `api.py` treats rules opaquely, so only an identifying
name is modelled. -/
structure LintRule where
  name : String
deriving DecidableEq

/-- Raw file content (`path.read_bytes()`), a sequence of bytes. -/
abbrev FileContent := List Nat

/-- The behaviour of one full iteration of the lazy violation sequence
returned by `collect_violations`: it yields zero or more violations and
either finishes normally (`nil`) or raises an exception (`raise`), possibly
after some yields. -/
inductive ViolationStream where
  | nil : ViolationStream
  | cons : LintViolation → ViolationStream → ViolationStream
  | raise : PyError → ViolationStream
deriving DecidableEq

/-- The stream that yields the violations of `vs` in order and then either
terminates normally (`f = none`) or raises (`f = some e`). -/
def ViolationStream.ofList : List LintViolation → Option PyError → ViolationStream
  | [], none => .nil
  | [], some e => .raise e
  | v :: vs, f => .cons v (ViolationStream.ofList vs f)

/-- The external collaborators of `api.py`, modelled at their interface
boundary: `Path.resolve`, `Path.read_bytes`, `generate_config`
(`fixit.config`), `collect_rules` (`fixit.config`), `collect_violations`
(`fixit.engine`), `trailrunner.walk`, and the order in which
`trailrunner.run_iter` yields completed per-file units. -/
structure Env where
  resolve : String → String
  read_bytes : String → Except PyError FileContent
  generate_config : String → Except PyError Config
  collect_rules : List String → List String → Except PyError (List LintRule)
  collect_violations : FileContent → List LintRule → Config → ViolationStream
  walk : String → List String
  run_iter_order : List String → List String

/-- `_make_result` (api.py lines 44-51): iterate the violation stream, wrap
each violation as `Result(path, violation)`; if the stream raises, catch the
exception and yield one final `Result(path, violation=None, error=...)`. -/
def _make_result (path : String) : ViolationStream → List Result
  | .nil => []
  | .cons v rest => ⟨path, some v, none⟩ :: _make_result path rest
  | .raise e => [⟨path, none, some e⟩]

/-- `fixit_bytes` (api.py lines 54-64): resolve the rule set via
`collect_rules` — outside any try, so a failure there propagates — then
delegate to `_make_result` over `collect_violations`. -/
def fixit_bytes (env : Env) (path : String) (content : FileContent)
    (config : Config) : Except PyError (List Result) :=
  match env.collect_rules config.enable config.disable with
  | .error e => .error e
  | .ok rules => .ok (_make_result path (env.collect_violations content rules config))

/-- `fixit_file` (api.py lines 67-83): resolve the path, then inside a try
read the bytes, generate the config and delegate to `fixit_bytes`; any
exception is caught and turned into one final error `Result`. -/
def fixit_file (env : Env) (path : String) : List Result :=
  let p := env.resolve path
  match env.read_bytes p with
  | .error e => [⟨p, none, some e⟩]
  | .ok content =>
    match env.generate_config p with
    | .error e => [⟨p, none, some e⟩]
    | .ok config =>
      match fixit_bytes env p content config with
      | .error e => [⟨p, none, some e⟩]
      | .ok results => results

/-- `_fixit_file_wrapper` (api.py lines 86-91): materialize `fixit_file`'s
generator into a list inside the worker; on lists this is the identity. -/
def _fixit_file_wrapper (env : Env) (path : String) : List Result :=
  fixit_file env path

/-- `fixit_paths` (api.py lines 94-111): empty input yields nothing; expand
every path with `trailrunner.walk`; a single expanded path is forwarded to
`fixit_file` directly; otherwise each path's materialized result list is
yielded in worker completion order (`run_iter_order`). -/
def fixit_paths (env : Env) (paths : List String) : List Result :=
  if paths.isEmpty then []
  else
    match paths.flatMap env.walk with
    | [p] => fixit_file env p
    | expanded =>
        (env.run_iter_order expanded).flatMap (fun p => _fixit_file_wrapper env p)

/-- `print_result` (api.py lines 22-41): the list of lines written via
`click.secho` — one violation line, or one error line (with the trace when
`debug` is set), or nothing when neither field is set. -/
def print_result (result : Result) (debug : Bool) : List String :=
  match result.violation with
  | some v =>
      [result.path ++ "@" ++ toString v.range.start.line ++ ":" ++
        toString v.range.start.column ++ " " ++ v.rule_name ++ ": " ++ v.message]
  | none =>
    match result.error with
    | some e =>
        if debug then [result.path ++ ": " ++ e.exc ++ ": " ++ e.tb]
        else [result.path ++ ": " ++ e.exc]
    | none => []

/-- The lines the reporter renders for a whole result sequence. -/
def renderResults (results : List Result) (debug : Bool) : List String :=
  results.flatMap (fun r => print_result r debug)

/-! ### Concrete sample data for evaluating the pipeline -/

/-- A sample violation: rule `rule1` fired at line 3, column 0. -/
def sampleViolation : LintViolation :=
  ⟨"rule1", ⟨⟨3, 0⟩, ⟨3, 5⟩⟩, "bad"⟩

/-- A sample captured exception. -/
def sampleError : PyError := ⟨"boom", "trace"⟩

/-- Sample file content. -/
def sampleContent : FileContent := [104, 105]

/-- Sample configuration. -/
def sampleConfig : Config := ⟨[], []⟩

/-- Sample rule set. -/
def sampleRules : List LintRule := [⟨"rule1"⟩]

/-- An environment in which every step succeeds and the collector yields one
violation; workers complete in reverse submission order. -/
def sampleEnv : Env :=
  ⟨fun p => p,
   fun _ => .ok sampleContent,
   fun _ => .ok sampleConfig,
   fun _ _ => .ok sampleRules,
   fun _ _ _ => .cons sampleViolation .nil,
   fun p => [p],
   fun l => l.reverse⟩

/-- An environment whose collector yields one violation and then raises. -/
def midFailEnv : Env :=
  ⟨fun p => p,
   fun _ => .ok sampleContent,
   fun _ => .ok sampleConfig,
   fun _ _ => .ok sampleRules,
   fun _ _ _ => ViolationStream.ofList [sampleViolation] (some sampleError),
   fun p => [p],
   fun l => l.reverse⟩

/-- An environment in which reading the file raises. -/
def readFailEnv : Env :=
  ⟨fun p => p,
   fun _ => .error sampleError,
   fun _ => .ok sampleConfig,
   fun _ _ => .ok sampleRules,
   fun _ _ _ => .nil,
   fun p => [p],
   fun l => l.reverse⟩

/-- An environment in which resolving the configuration raises. -/
def configFailEnv : Env :=
  ⟨fun p => p,
   fun _ => .ok sampleContent,
   fun _ => .error sampleError,
   fun _ _ => .ok sampleRules,
   fun _ _ _ => .nil,
   fun p => [p],
   fun l => l.reverse⟩

/-- An environment in which `collect_rules` raises. -/
def rulesFailEnv : Env :=
  ⟨fun p => p,
   fun _ => .ok sampleContent,
   fun _ => .ok sampleConfig,
   fun _ _ => .error sampleError,
   fun _ _ _ => .nil,
   fun p => [p],
   fun l => l.reverse⟩

/-- An environment whose collector yields no violations and never fails. -/
def cleanEnv : Env :=
  ⟨fun p => p,
   fun _ => .ok sampleContent,
   fun _ => .ok sampleConfig,
   fun _ _ => .ok sampleRules,
   fun _ _ _ => .nil,
   fun p => [p],
   fun l => l.reverse⟩

/-- An environment whose path walker finds no lintable files. -/
def emptyWalkEnv : Env :=
  ⟨fun p => p,
   fun _ => .ok sampleContent,
   fun _ => .ok sampleConfig,
   fun _ _ => .ok sampleRules,
   fun _ _ _ => .nil,
   fun _ => [],
   fun l => l.reverse⟩

/-! ### Helper lemmas -/

/-- Closed form of `_make_result` on a stream of `vs` violations followed by
an optional exception. -/
theorem make_result_ofList (p : String) (vs : List LintViolation)
    (f : Option PyError) :
    _make_result p (ViolationStream.ofList vs f) =
      vs.map (fun v => (⟨p, some v, none⟩ : Result)) ++
        (match f with
         | none => []
         | some e => [(⟨p, none, some e⟩ : Result)]) := by
  induction vs with
  | nil => cases f <;> rfl
  | cons v vs ih => simp [ViolationStream.ofList, _make_result, ih]

/-- Every result produced by `_make_result` carries exactly one of a
violation or an error. -/
theorem mem_make_result_shape (p : String) (s : ViolationStream) (r : Result)
    (h : r ∈ _make_result p s) :
    (∃ v, r.violation = some v ∧ r.error = none) ∨
      (∃ e, r.error = some e ∧ r.violation = none) := by
  induction s with
  | nil => cases h
  | cons v rest ih =>
      rw [_make_result, List.mem_cons] at h
      rcases h with h | h
      · subst h; exact Or.inl ⟨v, rfl, rfl⟩
      · exact ih h
  | raise e =>
      rw [_make_result, List.mem_singleton] at h
      subst h
      exact Or.inr ⟨e, rfl, rfl⟩

/-- Every result produced by `fixit_file` carries exactly one of a violation
or an error. -/
theorem mem_fixit_file_shape (env : Env) (p : String) (r : Result)
    (h : r ∈ fixit_file env p) :
    (∃ v, r.violation = some v ∧ r.error = none) ∨
      (∃ e, r.error = some e ∧ r.violation = none) := by
  simp only [fixit_file] at h
  rcases hrb : env.read_bytes (env.resolve p) with e | content
  · rw [hrb, List.mem_singleton] at h
    subst h
    exact Or.inr ⟨e, rfl, rfl⟩
  · simp only [hrb] at h
    rcases hcf : env.generate_config (env.resolve p) with e | config
    · simp only [hcf, List.mem_singleton] at h
      subst h
      exact Or.inr ⟨e, rfl, rfl⟩
    · simp only [hcf] at h
      rcases hfb : fixit_bytes env (env.resolve p) content config with e | results
      · simp only [hfb, List.mem_singleton] at h
        subst h
        exact Or.inr ⟨e, rfl, rfl⟩
      · simp only [hfb] at h
        unfold fixit_bytes at hfb
        rcases hcr : env.collect_rules config.enable config.disable with e | rules
        · rw [hcr] at hfb; cases hfb
        · rw [hcr] at hfb
          injection hfb with hfb
          subst hfb
          exact mem_make_result_shape _ _ _ h

/-! ### Claims -/

/-- C1: when the read, configuration and rule-resolution steps succeed and
the collector yields the violations `vs` and then raises `e`, the single-file
pipeline yields exactly the `vs.length` violation results in collector order
followed by exactly one final error result: the exception never propagates
and no already-yielded violation result is retracted. -/
theorem fixit_file_mid_stream_failure (env : Env) (p : String)
    (c : FileContent) (cfg : Config) (rules : List LintRule)
    (vs : List LintViolation) (e : PyError)
    (hrb : env.read_bytes (env.resolve p) = Except.ok c)
    (hcf : env.generate_config (env.resolve p) = Except.ok cfg)
    (hcr : env.collect_rules cfg.enable cfg.disable = Except.ok rules)
    (hcv : env.collect_violations c rules cfg =
      ViolationStream.ofList vs (some e)) :
    fixit_file env p =
      vs.map (fun v => (⟨env.resolve p, some v, none⟩ : Result)) ++
        [(⟨env.resolve p, none, some e⟩ : Result)] := by
  simp [fixit_file, hrb, hcf, fixit_bytes, hcr, hcv, make_result_ofList]

/-- Witness for C1: one violation followed by one error result. -/
theorem fixit_file_mid_stream_failure_witness :
    fixit_file midFailEnv "f.py" =
      [(⟨"f.py", some sampleViolation, none⟩ : Result),
       (⟨"f.py", none, some sampleError⟩ : Result)] :=
  fixit_file_mid_stream_failure midFailEnv "f.py" sampleContent sampleConfig
    sampleRules [sampleViolation] sampleError rfl rfl rfl rfl

/-- C2: every result yielded by `fixit_file` or by `fixit_paths` has exactly
one of `violation` or `error` set — never both, never neither (the `path`
field is total by construction). -/
theorem yielded_result_exactly_one_field (env : Env) (p : String)
    (paths : List String) (r : Result)
    (h : r ∈ fixit_file env p ∨ r ∈ fixit_paths env paths) :
    (∃ v, r.violation = some v ∧ r.error = none) ∨
      (∃ e, r.error = some e ∧ r.violation = none) := by
  rcases h with h | h
  · exact mem_fixit_file_shape env p r h
  · rw [fixit_paths] at h
    split at h
    · cases h
    · split at h
      · exact mem_fixit_file_shape env _ r h
      · rw [List.mem_flatMap] at h
        obtain ⟨q, _, hq⟩ := h
        exact mem_fixit_file_shape env q r hq

/-- Witness for C2: a violation result actually yielded by `fixit_file`. -/
theorem yielded_result_exactly_one_field_witness :
    (∃ v, (⟨"f.py", some sampleViolation, none⟩ : Result).violation = some v ∧
        (⟨"f.py", some sampleViolation, none⟩ : Result).error = none) ∨
      (∃ e, (⟨"f.py", some sampleViolation, none⟩ : Result).error = some e ∧
        (⟨"f.py", some sampleViolation, none⟩ : Result).violation = none) :=
  yielded_result_exactly_one_field midFailEnv "f.py" []
    ⟨"f.py", some sampleViolation, none⟩ (Or.inl (by decide))

/-- C3: when reading the file's bytes fails, or reading succeeds and
resolving the configuration fails, `fixit_file` yields exactly one error
result, no violation results, and stops there. -/
theorem fixit_file_early_failure (env : Env) (p : String) (e : PyError) :
    (env.read_bytes (env.resolve p) = Except.error e →
      fixit_file env p = [(⟨env.resolve p, none, some e⟩ : Result)]) ∧
    (∀ c, env.read_bytes (env.resolve p) = Except.ok c →
      env.generate_config (env.resolve p) = Except.error e →
      fixit_file env p = [(⟨env.resolve p, none, some e⟩ : Result)]) := by
  constructor
  · intro h
    simp [fixit_file, h]
  · intro c h1 h2
    simp [fixit_file, h1, h2]

/-- Witness for C3: a failing read and a failing configuration resolution
each produce the single error result. -/
theorem fixit_file_early_failure_witness :
    fixit_file readFailEnv "f.py" = [(⟨"f.py", none, some sampleError⟩ : Result)] ∧
    fixit_file configFailEnv "f.py" = [(⟨"f.py", none, some sampleError⟩ : Result)] :=
  ⟨(fixit_file_early_failure readFailEnv "f.py" sampleError).1 rfl,
   (fixit_file_early_failure configFailEnv "f.py" sampleError).2 sampleContent rfl rfl⟩

/-- C5: a clean file — all steps succeed and the collector terminates without
yielding — produces exactly zero results. -/
theorem fixit_file_clean_empty (env : Env) (p : String) (c : FileContent)
    (cfg : Config) (rules : List LintRule)
    (hrb : env.read_bytes (env.resolve p) = Except.ok c)
    (hcf : env.generate_config (env.resolve p) = Except.ok cfg)
    (hcr : env.collect_rules cfg.enable cfg.disable = Except.ok rules)
    (hcv : env.collect_violations c rules cfg = ViolationStream.nil) :
    fixit_file env p = [] := by
  simp [fixit_file, hrb, hcf, fixit_bytes, hcr, hcv, _make_result]

/-- Witness for C5: the clean environment yields the empty sequence. -/
theorem fixit_file_clean_empty_witness :
    fixit_file cleanEnv "f.py" = [] :=
  fixit_file_clean_empty cleanEnv "f.py" sampleContent sampleConfig
    sampleRules rfl rfl rfl rfl

/-- C4: with a nonempty input list, a single expanded path is forwarded to
`fixit_file` unchanged; with any other expansion cardinality, provided the
worker pool completes a permutation of the expanded paths, the output is the
concatenation of the full per-file `fixit_file` sequences in completion
order — each file's results contiguous and in order, whole groups permuted. -/
theorem fixit_paths_dispatch (env : Env) (paths : List String)
    (hne : paths ≠ []) :
    (∀ p, paths.flatMap env.walk = [p] →
      fixit_paths env paths = fixit_file env p) ∧
    ((paths.flatMap env.walk).length ≠ 1 →
      List.Perm (env.run_iter_order (paths.flatMap env.walk))
        (paths.flatMap env.walk) →
      ∃ order, List.Perm order (paths.flatMap env.walk) ∧
        fixit_paths env paths = order.flatMap (fun p => fixit_file env p)) := by
  have hem : paths.isEmpty = false := by
    cases paths with
    | nil => exact absurd rfl hne
    | cons a l => rfl
  constructor
  · intro p hp
    simp [fixit_paths, hem, hp]
  · intro hlen hperm
    refine ⟨env.run_iter_order (paths.flatMap env.walk), hperm, ?_⟩
    rcases hexp : paths.flatMap env.walk with _ | ⟨q, _ | ⟨q2, rest⟩⟩
    · simp [fixit_paths, hem, hexp, _fixit_file_wrapper]
    · rw [hexp] at hlen
      exact absurd rfl hlen
    · simp [fixit_paths, hem, hexp, _fixit_file_wrapper]

/-- Witness for C4: a one-element expansion forwards `fixit_file`, and a
two-element expansion flattens the per-file lists along a permutation. -/
theorem fixit_paths_dispatch_witness :
    fixit_paths sampleEnv ["a"] = fixit_file sampleEnv "a" ∧
    ∃ order, List.Perm order (["a", "b"].flatMap sampleEnv.walk) ∧
      fixit_paths sampleEnv ["a", "b"] =
        order.flatMap (fun p => fixit_file sampleEnv p) :=
  ⟨(fixit_paths_dispatch sampleEnv ["a"] (by decide)).1 "a" rfl,
   (fixit_paths_dispatch sampleEnv ["a", "b"] (by decide)).2 (by decide)
     (List.reverse_perm _)⟩

/-- C6: an empty input collection produces an empty stream, and a nonempty
input whose expansion is empty also produces an empty stream (the worker
pool over an empty path list completes nothing); no failure occurs. -/
theorem fixit_paths_empty_stream (env : Env) (paths : List String) :
    fixit_paths env [] = [] ∧
      (paths.flatMap env.walk = [] → env.run_iter_order [] = [] →
        fixit_paths env paths = []) := by
  constructor
  · rfl
  · intro hexp hord
    rcases hp : paths.isEmpty with hfalse | htrue
    · simp [fixit_paths, hp, hexp, hord, _fixit_file_wrapper]
    · simp [fixit_paths, hp]

/-- Witness for C6: empty input, and one input path that expands to no
files, both yield the empty stream. -/
theorem fixit_paths_empty_stream_witness :
    fixit_paths emptyWalkEnv [] = [] ∧ fixit_paths emptyWalkEnv ["a"] = [] :=
  ⟨(fixit_paths_empty_stream emptyWalkEnv []).1,
   (fixit_paths_empty_stream emptyWalkEnv ["a"]).2 rfl rfl⟩

/-- Counterexample for C7: on a result with both `violation` and `error`
set, the reporter renders the violation line, not the error line the claim
prescribes for every result with `error` set — the violation branch shadows
the error branch. -/
theorem print_result_error_shadowed :
    (⟨"f.py", some sampleViolation, some sampleError⟩ : Result).error =
        some sampleError ∧
      print_result ⟨"f.py", some sampleViolation, some sampleError⟩ false =
        ["f.py@3:0 rule1: bad"] ∧
      print_result ⟨"f.py", some sampleViolation, some sampleError⟩ false ≠
        ["f.py: boom"] := by
  refine ⟨rfl, by decide, by decide⟩

/-- C7 (amended): for every result with `violation` set the reporter renders
exactly the one line `path@line:column rule_name: message` from the range's
start position; for every result with `error` set and `violation` unset it
renders exactly the one line `path: error`, with the full trace appended
exactly when the debug flag is set. -/
theorem print_result_line_format (r : Result) (debug : Bool) :
    (∀ v, r.violation = some v →
      print_result r debug =
        [r.path ++ "@" ++ toString v.range.start.line ++ ":" ++
          toString v.range.start.column ++ " " ++ v.rule_name ++ ": " ++
          v.message]) ∧
    (∀ e, r.violation = none → r.error = some e →
      print_result r debug =
        if debug then [r.path ++ ": " ++ e.exc ++ ": " ++ e.tb]
        else [r.path ++ ": " ++ e.exc]) := by
  constructor
  · intro v hv
    simp [print_result, hv]
  · intro e hv he
    simp [print_result, hv, he]

/-- Witness for C7: the rendered violation line and the rendered debug error
line at concrete results. -/
theorem print_result_line_format_witness :
    print_result ⟨"f.py", some sampleViolation, none⟩ false =
      ["f.py" ++ "@" ++ toString sampleViolation.range.start.line ++ ":" ++
        toString sampleViolation.range.start.column ++ " " ++
        sampleViolation.rule_name ++ ": " ++ sampleViolation.message] ∧
    print_result ⟨"f.py", none, some sampleError⟩ true =
      (if true then ["f.py" ++ ": " ++ sampleError.exc ++ ": " ++ sampleError.tb]
       else ["f.py" ++ ": " ++ sampleError.exc]) :=
  ⟨(print_result_line_format ⟨"f.py", some sampleViolation, none⟩ false).1
      sampleViolation rfl,
   (print_result_line_format ⟨"f.py", none, some sampleError⟩ true).2
      sampleError rfl rfl⟩

/-- C8: two environments whose rule loading and violation collection agree
(collector determinism) make `fixit_bytes` produce identical result
sequences on the same path, content and configuration, and the reporter's
rendered lines for the two runs are identical. -/
theorem fixit_bytes_deterministic (env1 env2 : Env) (p : String)
    (c : FileContent) (cfg : Config)
    (hr : env1.collect_rules = env2.collect_rules)
    (hv : env1.collect_violations = env2.collect_violations) :
    fixit_bytes env1 p c cfg = fixit_bytes env2 p c cfg ∧
    (∀ debug rs1 rs2, fixit_bytes env1 p c cfg = Except.ok rs1 →
      fixit_bytes env2 p c cfg = Except.ok rs2 →
      renderResults rs1 debug = renderResults rs2 debug) := by
  have key : fixit_bytes env1 p c cfg = fixit_bytes env2 p c cfg := by
    simp [fixit_bytes, hr, hv]
  refine ⟨key, ?_⟩
  intro debug rs1 rs2 h1 h2
  rw [h1, h2] at key
  injection key with key
  rw [key]

/-- Witness for C8: two runs in the sample environment agree, as do their
rendered lines. -/
theorem fixit_bytes_deterministic_witness :
    fixit_bytes sampleEnv "f.py" sampleContent sampleConfig =
      fixit_bytes sampleEnv "f.py" sampleContent sampleConfig ∧
    renderResults (_make_result "f.py" (.cons sampleViolation .nil)) false =
      renderResults (_make_result "f.py" (.cons sampleViolation .nil)) false :=
  ⟨(fixit_bytes_deterministic sampleEnv sampleEnv "f.py" sampleContent
      sampleConfig rfl rfl).1,
   (fixit_bytes_deterministic sampleEnv sampleEnv "f.py" sampleContent
      sampleConfig rfl rfl).2 false _ _ rfl rfl⟩

/-- C9: on a result with neither `violation` nor `error` set, the reporter
is total and prints nothing — neither branch executes. -/
theorem print_result_neither_set_silent (p : String) (debug : Bool) :
    print_result ⟨p, none, none⟩ debug = [] := rfl

/-- C10: a `collect_rules` failure propagates out of `fixit_bytes` as the
raised exception itself, while `fixit_file` — whose read and configuration
steps succeed — contains the same failure as one error result. -/
theorem fixit_bytes_propagates_rule_failure (env : Env) (p : String)
    (c : FileContent) (cfg : Config) (e : PyError)
    (hcr : env.collect_rules cfg.enable cfg.disable = Except.error e) :
    fixit_bytes env p c cfg = Except.error e ∧
    (env.read_bytes (env.resolve p) = Except.ok c →
      env.generate_config (env.resolve p) = Except.ok cfg →
      fixit_file env p = [(⟨env.resolve p, none, some e⟩ : Result)]) := by
  have hb : fixit_bytes env p c cfg = Except.error e := by
    simp [fixit_bytes, hcr]
  refine ⟨hb, ?_⟩
  intro h1 h2
  have hb2 : fixit_bytes env (env.resolve p) c cfg = Except.error e := by
    simp [fixit_bytes, hcr]
  simp [fixit_file, h1, h2, hb2]

/-- Witness for C10: in the rule-failure environment `fixit_bytes` returns
the error and `fixit_file` yields the single error result. -/
theorem fixit_bytes_propagates_rule_failure_witness :
    fixit_bytes rulesFailEnv "f.py" sampleContent sampleConfig =
      Except.error sampleError ∧
    fixit_file rulesFailEnv "f.py" =
      [(⟨"f.py", none, some sampleError⟩ : Result)] :=
  ⟨(fixit_bytes_propagates_rule_failure rulesFailEnv "f.py" sampleContent
      sampleConfig sampleError rfl).1,
   (fixit_bytes_propagates_rule_failure rulesFailEnv "f.py" sampleContent
      sampleConfig sampleError rfl).2 rfl rfl⟩

end Fixit
